import Mathlib

/-!
Shallow embedding of the lcd44780 HD44780U/PCF8574 LCD driver
(`lcd44780.c`, `lcd44780.h`).

Modelling conventions:
* Bytes on the I2C bus are `Nat` values; every byte actually written is
  `< 256` because the C code computes it in `char` variables.  Masks from
  the source (`& 0xF0`, `& ~ENABLE`) become the corresponding 8-bit `Nat`
  masks (`&&& 0xF0`, `&&& 0xFB`).
* The library's global mutable state (`bl44780`, `lcdrows`, `lcdcols`) and
  the sequence of bytes the driver has written to the bus are collected in
  an explicit `LCDState` record that every function threads through.
* `i2c_write_device` (pigpiod) is the transport boundary.  Its return
  status for the n-th bus write of a run is supplied by an oracle
  `res : Nat → Int`, indexed by the length of the trace at the moment of
  the call; the byte written is appended to the trace.  The C code never
  inspects these statuses, it only returns the last one it saw.
* `nanosleep` calls have no observable effect in this model and are
  dropped.
-/

/-- Error codes from `lcd44780.c`. -/
def ROWTOOLOW : Int := -1000

/-- Row specified as higher than `lcdrows + ORIGIN`. -/
def ROWTOOHIGH : Int := -1001

/-- Column specified as lower than `ORIGIN`. -/
def COLTOOLOW : Int := -1003

/-- Column specified as higher than `lcdcols + ORIGIN`. -/
def COLTOOHIGH : Int := -1004

/-- Constant `ORIGIN` — the 1-based origin of the public row/column coordinates. -/
def ORIGIN : Nat := 1

/-- HD44780U instruction-set constants from `lcd44780.c`. -/
def CLEARDISPLAY : Nat := 0x01

def CURSORHOME : Nat := 0x02

def ENTRYMODESET : Nat := 0x04

def DISPLAYCONTROL : Nat := 0x08

def CURSORMOVE : Nat := 0x10

def FUNCTIONSET : Nat := 0x20

def DDRAMSETADDR : Nat := 0x80

def ENTRYDEC : Nat := 0x00

def ENTRYINC : Nat := 0x01

def ENTRYRIGHT : Nat := 0x00

def ENTRYLEFT : Nat := 0x02

def BLINKOFF : Nat := 0x00

def BLINKON : Nat := 0x01

def CURSOROFF : Nat := 0x00

def CURSORON : Nat := 0x02

def DISPLAYOFF : Nat := 0x00

def DISPLAYON : Nat := 0x04

def CHAR5X8 : Nat := 0x00

def ONELINE : Nat := 0x00

def TWOLINE : Nat := 0x08

def FOURBIT : Nat := 0x00

def EIGHTBIT : Nat := 0x10

/-- PCF8574 backpack pin bits. -/
def BACKLIGHT : Nat := 0x08

def ENABLE : Nat := 0x04

def READWRITE : Nat := 0x02

def REGISTERSET : Nat := 0x01

/-- 8-bit complement of `ENABLE` (`& ~ENABLE` on a `char`). -/
def NOTENABLE : Nat := 0xFB

/-- Table `static uint8_t rowstart[4]` — DDRAM start address of each row. -/
def rowstart : List Nat := [0x00, 0x40, 0x14, 0x54]

/-- The driver's global mutable state plus the observable bus trace. -/
structure LCDState where
  bl : Nat
  lcdrows : Nat
  lcdcols : Nat
  trace : List Nat
  deriving Repr, DecidableEq

/-- The C globals at program start: `bl44780 = BACKLIGHT`, and the
zero-initialised `lcdrows`/`lcdcols` statics. -/
def initialState : LCDState := ⟨BACKLIGHT, 0, 0, []⟩

/-- Transport boundary: write one byte to the bus.  The status returned
for this call is `res` applied to the index of the write (the current
trace length); the byte is appended to the trace. -/
def i2c_write_device (res : Nat → Int) (s : LCDState) (b : Nat) :
    Int × LCDState :=
  (res s.trace.length, { s with trace := s.trace ++ [b] })

/-- Function `lcd44780writecmd8`: one nibble already packed by the caller is shifted
into bits 4–7, OR-ed with backlight and enable, written, then written again
with enable cleared. -/
def lcd44780writecmd8 (res : Nat → Int) (s : LCDState) (data : Nat) :
    Int × LCDState :=
  let d1 := ((data <<< 4) &&& 0xF0) ||| s.bl ||| ENABLE
  let (_, s1) := i2c_write_device res s d1
  let d2 := d1 &&& NOTENABLE
  let (i, s2) := i2c_write_device res s1 d2
  (i, s2)

/-- Function `lcd44780writecmd4`: split `data` into high and low nibbles, and for
each nibble (high first) write it with enable set, then with enable
cleared.  Register-select stays 0. -/
def lcd44780writecmd4 (res : Nat → Int) (s : LCDState) (data : Nat) :
    Int × LCDState :=
  let high := data &&& 0xF0
  let low := (data <<< 4) &&& 0xF0
  let high1 := high ||| s.bl ||| ENABLE
  let (_, s1) := i2c_write_device res s high1
  let high2 := high1 &&& NOTENABLE
  let (_, s2) := i2c_write_device res s1 high2
  let low1 := low ||| s.bl ||| ENABLE
  let (_, s3) := i2c_write_device res s2 low1
  let low2 := low1 &&& NOTENABLE
  let (i, s4) := i2c_write_device res s3 low2
  (i, s4)

/-- Function `lcd44780writedata`: identical to `lcd44780writecmd4` but with the
register-select bit OR-ed into every byte. -/
def lcd44780writedata (res : Nat → Int) (s : LCDState) (data : Nat) :
    Int × LCDState :=
  let high := data &&& 0xF0
  let low := (data <<< 4) &&& 0xF0
  let high1 := high ||| s.bl ||| REGISTERSET ||| ENABLE
  let (_, s1) := i2c_write_device res s high1
  let high2 := high1 &&& NOTENABLE
  let (_, s2) := i2c_write_device res s1 high2
  let low1 := low ||| s.bl ||| REGISTERSET ||| ENABLE
  let (_, s3) := i2c_write_device res s2 low1
  let low2 := low1 &&& NOTENABLE
  let (i, s4) := i2c_write_device res s3 low2
  (i, s4)

/-- Function `lcd44780backlight`: update the persistent backlight flag and write it
directly to the bus. -/
def lcd44780backlight (res : Nat → Int) (s : LCDState) (setting : Nat) :
    Int × LCDState :=
  let bl := if setting = 0 then 0x00 else BACKLIGHT
  let s0 := { s with bl := bl }
  i2c_write_device res s0 bl

/-- Function `lcd44780setpos`: `curpos = rowstart[row] + col` computed in a
`uint8_t` (hence `% 256`), OR-ed with `DDRAMSETADDR`, sent over the 4-bit
command path.  The C array access `rowstart[row]` has no bound check; an
out-of-range `row` is undefined behaviour in C and is modelled by the
list's default value. -/
def lcd44780setpos (res : Nat → Int) (s : LCDState) (row col : Nat) :
    Int × LCDState :=
  let curpos := (rowstart.getD row 0 + col) % 256
  let buf := DDRAMSETADDR ||| curpos
  lcd44780writecmd4 res s buf

/-- The `for (count=0;count<len;count++) i=lcd44780writedata(...)` loop of
`lcd44780str`, carrying the last status seen. -/
def lcd44780strloop (res : Nat → Int) (s : LCDState) (cs : List Nat)
    (iPrev : Int) : Int × LCDState :=
  match cs with
  | [] => (iPrev, s)
  | c :: rest =>
    let (i, s1) := lcd44780writedata res s c
    lcd44780strloop res s1 rest i

/-- Function `lcd44780str`: validate row then column against
`[ORIGIN, ORIGIN + lcdrows - 1]` / `[ORIGIN, ORIGIN + lcdcols - 1]`,
truncate the string to the space left on the row, set the cursor, and
write the characters one by one.  `writebuf` is the C string's bytes up to
(not including) its NUL terminator. -/
def lcd44780str (res : Nat → Int) (s : LCDState) (writebuf : List Nat)
    (row col : Nat) : Int × LCDState :=
  if row < ORIGIN then (ROWTOOLOW, s)
  else if row > ORIGIN + s.lcdrows - 1 then (ROWTOOHIGH, s)
  else if col < ORIGIN then (COLTOOLOW, s)
  else if col > ORIGIN + s.lcdcols - 1 then (COLTOOHIGH, s)
  else
    let len := min writebuf.length (s.lcdcols - col + ORIGIN)
    let buf := writebuf.take len
    let (i, s1) := lcd44780setpos res s (row - ORIGIN) (col - ORIGIN)
    lcd44780strloop res s1 buf i

/-- Function `lcd44780chr`: same validation as `lcd44780str`; writes the first
character of `writebuf` (`strncpy(buf, writebuf, 1)`, so `0` if the string
is empty). -/
def lcd44780chr (res : Nat → Int) (s : LCDState) (writebuf : List Nat)
    (row col : Nat) : Int × LCDState :=
  if row < ORIGIN then (ROWTOOLOW, s)
  else if row > ORIGIN + s.lcdrows - 1 then (ROWTOOHIGH, s)
  else if col < ORIGIN then (COLTOOLOW, s)
  else if col > ORIGIN + s.lcdcols - 1 then (COLTOOHIGH, s)
  else
    let (_, s1) := lcd44780setpos res s (row - ORIGIN) (col - ORIGIN)
    lcd44780writedata res s1 (writebuf.headD 0)

/-- Function `lcd44780clear`: send `CLEARDISPLAY` via the 4-bit command path. -/
def lcd44780clear (res : Nat → Int) (s : LCDState) : Int × LCDState :=
  lcd44780writecmd4 res s CLEARDISPLAY

/-- Function `lcd44780home`: send `CURSORHOME` via the 4-bit command path. -/
def lcd44780home (res : Nat → Int) (s : LCDState) : Int × LCDState :=
  lcd44780writecmd4 res s CURSORHOME

/-- Function `lcd44780init`: store the geometry (`uint8_t` statics, hence `% 256`),
run the 8-bit resync sequence, switch to 4-bit mode, then function-set,
display-off, entry-mode, clear, display-on.  Return statuses of the
intermediate steps are overwritten, never inspected. -/
def lcd44780init (res : Nat → Int) (s : LCDState) (rows cols : Nat) :
    Int × LCDState :=
  let s0 := { s with lcdrows := rows % 256, lcdcols := cols % 256 }
  let b1 := ((FUNCTIONSET ||| EIGHTBIT) >>> 4) &&& 0x0F
  let (_, s1) := lcd44780writecmd8 res s0 b1
  let (_, s2) := lcd44780writecmd8 res s1 b1
  let (_, s3) := lcd44780writecmd8 res s2 b1
  let b2 := ((FUNCTIONSET ||| FOURBIT) >>> 4) &&& 0x0F
  let (_, s4) := lcd44780writecmd8 res s3 b2
  let (_, s5) := lcd44780writecmd4 res s4 (FUNCTIONSET ||| FOURBIT ||| TWOLINE)
  let (_, s6) := lcd44780writecmd4 res s5
    (DISPLAYCONTROL ||| DISPLAYOFF ||| CURSOROFF ||| BLINKOFF)
  let (_, s7) := lcd44780writecmd4 res s6 (ENTRYMODESET ||| ENTRYRIGHT)
  let (_, s8) := lcd44780clear res s7
  let (i, s9) := lcd44780writecmd4 res s8
    (DISPLAYCONTROL ||| DISPLAYON ||| BLINKOFF ||| CURSOROFF)
  (i, s9)

/-- Function `lcd44780setdisplay`: build one display-control command from the three
on/off arguments and send it via the 4-bit command path. -/
def lcd44780setdisplay (res : Nat → Int) (s : LCDState)
    (mode blink cursor : Nat) : Int × LCDState :=
  let cmd := DISPLAYCONTROL
  let cmd := if mode = 0 then cmd ||| DISPLAYOFF else cmd ||| DISPLAYON
  let cmd := if blink = 0 then cmd ||| BLINKOFF else cmd ||| BLINKON
  let cmd := if cursor = 0 then cmd ||| CURSOROFF else cmd ||| CURSORON
  lcd44780writecmd4 res s cmd

/-- Conversion of a caller-supplied C `int` to the `uint8_t` parameter
type of `lcd44780str`/`lcd44780chr` (wrap modulo 256). -/
def wrapU8 (c : Int) : Nat := (c % 256).toNat

/-- The four bytes `lcd44780writecmd4` puts on the bus for `data` under
backlight flag `b`: names follow the source locals `high`/`low` before and
after the enable bit is cleared. -/
def cmdHigh1 (b d : Nat) : Nat := (d &&& 0xF0) ||| b ||| ENABLE

def cmdHigh2 (b d : Nat) : Nat := cmdHigh1 b d &&& NOTENABLE

def cmdLow1 (b d : Nat) : Nat := ((d <<< 4) &&& 0xF0) ||| b ||| ENABLE

def cmdLow2 (b d : Nat) : Nat := cmdLow1 b d &&& NOTENABLE

/-- The four bytes `lcd44780writedata` puts on the bus for `data` under
backlight flag `b`. -/
def datHigh1 (b d : Nat) : Nat := (d &&& 0xF0) ||| b ||| REGISTERSET ||| ENABLE

def datHigh2 (b d : Nat) : Nat := datHigh1 b d &&& NOTENABLE

def datLow1 (b d : Nat) : Nat := ((d <<< 4) &&& 0xF0) ||| b ||| REGISTERSET ||| ENABLE

def datLow2 (b d : Nat) : Nat := datLow1 b d &&& NOTENABLE

/-- One nibble transfer: first byte `b1` (enable high), second byte `b2`
(enable low), identical in every bit except the enable bit, with the data
nibble `nib` in bits 4–7 of both. -/
def nibblePair (b1 b2 nib : Nat) : Prop :=
  b1 &&& 0xF0 = nib ∧ b2 &&& 0xF0 = nib ∧
  b1 &&& ENABLE = ENABLE ∧ b2 &&& ENABLE = 0 ∧ b1 = b2 ||| ENABLE

instance (b1 b2 nib : Nat) : Decidable (nibblePair b1 b2 nib) := by
  unfold nibblePair; infer_instance

/-- Trace shape of `lcd44780writecmd4`. -/
theorem writecmd4_trace (res : Nat → Int) (s : LCDState) (d : Nat) :
    (lcd44780writecmd4 res s d).2.trace =
      s.trace ++ [cmdHigh1 s.bl d, cmdHigh2 s.bl d, cmdLow1 s.bl d, cmdLow2 s.bl d] := by
  simp [lcd44780writecmd4, i2c_write_device, cmdHigh1, cmdHigh2, cmdLow1, cmdLow2]

/-- Trace shape of `lcd44780writedata`. -/
theorem writedata_trace (res : Nat → Int) (s : LCDState) (d : Nat) :
    (lcd44780writedata res s d).2.trace =
      s.trace ++ [datHigh1 s.bl d, datHigh2 s.bl d, datLow1 s.bl d, datLow2 s.bl d] := by
  simp [lcd44780writedata, i2c_write_device, datHigh1, datHigh2, datLow1, datLow2]

/-- The two bytes `lcd44780writecmd8` puts on the bus for `data` under
backlight flag `b`. -/
def cmd8High1 (b d : Nat) : Nat := ((d <<< 4) &&& 0xF0) ||| b ||| ENABLE

def cmd8High2 (b d : Nat) : Nat := cmd8High1 b d &&& NOTENABLE

/-- Trace shape of `lcd44780writecmd8`. -/
theorem writecmd8_trace (res : Nat → Int) (s : LCDState) (d : Nat) :
    (lcd44780writecmd8 res s d).2.trace =
      s.trace ++ [cmd8High1 s.bl d, cmd8High2 s.bl d] := by
  simp [lcd44780writecmd8, i2c_write_device, cmd8High1, cmd8High2]

theorem writecmd8_bl (res : Nat → Int) (s : LCDState) (d : Nat) :
    (lcd44780writecmd8 res s d).2.bl = s.bl := rfl

theorem writecmd4_bl (res : Nat → Int) (s : LCDState) (d : Nat) :
    (lcd44780writecmd4 res s d).2.bl = s.bl := rfl

theorem writedata_bl (res : Nat → Int) (s : LCDState) (d : Nat) :
    (lcd44780writedata res s d).2.bl = s.bl := rfl

theorem setpos_bl (res : Nat → Int) (s : LCDState) (row col : Nat) :
    (lcd44780setpos res s row col).2.bl = s.bl := rfl

/-- A high-nibble mask result is at most `0xF0`. -/
theorem hiMask_lt (x : Nat) : x &&& 0xF0 < 241 :=
  Nat.lt_succ_of_le Nat.and_le_right

/-- Masking with `0xF0` is idempotent. -/
theorem hiMask_idem (x : Nat) : (x &&& 0xF0) &&& 0xF0 = x &&& 0xF0 := by
  rw [Nat.and_assoc]
  rfl

/-- All the 8-bit facts the claims need about a bus byte built from a
high-nibble value `n`, backlight flag `b`, and the `REGISTERSET`/`ENABLE`
pins, in both the enable-high and enable-low (`&&& NOTENABLE`) forms. -/
def byteFacts (b n : Nat) : Prop :=
  nibblePair (n ||| b ||| ENABLE) ((n ||| b ||| ENABLE) &&& NOTENABLE) n ∧
  nibblePair (n ||| b ||| REGISTERSET ||| ENABLE)
    ((n ||| b ||| REGISTERSET ||| ENABLE) &&& NOTENABLE) n ∧
  (n ||| b ||| ENABLE) &&& BACKLIGHT = b ∧
  ((n ||| b ||| ENABLE) &&& NOTENABLE) &&& BACKLIGHT = b ∧
  (n ||| b ||| REGISTERSET ||| ENABLE) &&& BACKLIGHT = b ∧
  ((n ||| b ||| REGISTERSET ||| ENABLE) &&& NOTENABLE) &&& BACKLIGHT = b ∧
  n ||| b ||| REGISTERSET ||| ENABLE = (n ||| b ||| ENABLE) ||| REGISTERSET ∧
  (n ||| b ||| REGISTERSET ||| ENABLE) &&& NOTENABLE =
    ((n ||| b ||| ENABLE) &&& NOTENABLE) ||| REGISTERSET ∧
  (n ||| b ||| ENABLE) &&& REGISTERSET = 0 ∧
  ((n ||| b ||| ENABLE) &&& NOTENABLE) &&& REGISTERSET = 0

instance (b n : Nat) : Decidable (byteFacts b n) := by
  unfold byteFacts; infer_instance

set_option maxRecDepth 4000 in
/-- Fact that `byteFacts` holds for every high-nibble value and both legal backlight
flags. -/
theorem byteFacts_holds :
    ∀ n, n < 241 → n &&& 0xF0 = n → byteFacts 0 n ∧ byteFacts 8 n := by decide

/-- A trivially successful transport oracle (pigpiod status 0) used to
instantiate theorems at concrete inputs. -/
def res0 : Nat → Int := fun _ => 0

/-- A concrete 16-column, 2-row display state with the backlight on and an
empty bus trace. -/
def st16x2 : LCDState := ⟨8, 2, 16, []⟩

/-- C1: after initialization every 8-bit value sent through
`lcd44780writecmd4` or `lcd44780writedata` goes out as exactly two nibble
transfers, high nibble first, each transfer being two bus writes that are
identical except for the enable bit (set first, then cleared) — four bus
writes per call. -/
theorem writes_nibble_framed (res : Nat → Int) (s : LCDState) (d : Nat)
    (hd : d < 256) (hbl : s.bl = 0 ∨ s.bl = 8) :
    ((lcd44780writecmd4 res s d).2.trace =
        s.trace ++ [cmdHigh1 s.bl d, cmdHigh2 s.bl d, cmdLow1 s.bl d, cmdLow2 s.bl d] ∧
      nibblePair (cmdHigh1 s.bl d) (cmdHigh2 s.bl d) (d &&& 0xF0) ∧
      nibblePair (cmdLow1 s.bl d) (cmdLow2 s.bl d) ((d <<< 4) &&& 0xF0)) ∧
    ((lcd44780writedata res s d).2.trace =
        s.trace ++ [datHigh1 s.bl d, datHigh2 s.bl d, datLow1 s.bl d, datLow2 s.bl d] ∧
      nibblePair (datHigh1 s.bl d) (datHigh2 s.bl d) (d &&& 0xF0) ∧
      nibblePair (datLow1 s.bl d) (datLow2 s.bl d) ((d <<< 4) &&& 0xF0)) := by
  have bfH := byteFacts_holds (d &&& 0xF0) (hiMask_lt d) (hiMask_idem d)
  have bfL := byteFacts_holds ((d <<< 4) &&& 0xF0) (hiMask_lt _) (hiMask_idem _)
  rcases hbl with h | h <;> rw [h]
  · exact ⟨⟨by rw [writecmd4_trace, h], bfH.1.1, bfL.1.1⟩,
      ⟨by rw [writedata_trace, h], bfH.1.2.1, bfL.1.2.1⟩⟩
  · exact ⟨⟨by rw [writecmd4_trace, h], bfH.2.1, bfL.2.1⟩,
      ⟨by rw [writedata_trace, h], bfH.2.2.1, bfL.2.2.1⟩⟩

/-- Witness for C1 at `d = 0x41` on a concrete state. -/
theorem writes_nibble_framed_witness :
    nibblePair (cmdHigh1 8 65) (cmdHigh2 8 65) (65 &&& 0xF0) :=
  (writes_nibble_framed res0 st16x2 65 (by decide) (Or.inr rfl)).1.2.1

/-- C5: on the same input, `lcd44780writedata` writes exactly the byte
sequence of `lcd44780writecmd4` with the register-select bit additionally
set on every byte; the write count (four) and the nibble content per write
are identical, and the command bytes have the register-select bit clear. -/
theorem writedata_is_writecmd4_with_rs (res : Nat → Int) (s : LCDState)
    (d : Nat) (hd : d < 256) (hbl : s.bl = 0 ∨ s.bl = 8) :
    (lcd44780writedata res s d).2.trace =
      s.trace ++ (((lcd44780writecmd4 res s d).2.trace).drop s.trace.length).map
        (fun b => b ||| REGISTERSET) ∧
    (((lcd44780writecmd4 res s d).2.trace).drop s.trace.length).length = 4 ∧
    (((lcd44780writedata res s d).2.trace).drop s.trace.length).length = 4 ∧
    (((lcd44780writedata res s d).2.trace).drop s.trace.length).map
        (fun b => b &&& 0xF0) =
      (((lcd44780writecmd4 res s d).2.trace).drop s.trace.length).map
        (fun b => b &&& 0xF0) ∧
    ∀ b ∈ ((lcd44780writecmd4 res s d).2.trace).drop s.trace.length,
      b &&& REGISTERSET = 0 := by
  have bfH := byteFacts_holds (d &&& 0xF0) (hiMask_lt d) (hiMask_idem d)
  have bfL := byteFacts_holds ((d <<< 4) &&& 0xF0) (hiMask_lt _) (hiMask_idem _)
  rw [writecmd4_trace, writedata_trace, List.drop_left, List.drop_left]
  rcases hbl with h | h <;> rw [h]
  · refine ⟨?_, rfl, rfl, ?_, ?_⟩
    · simp only [List.map_cons, List.map_nil, datHigh1, datHigh2, datLow1,
        datLow2, cmdHigh1, cmdHigh2, cmdLow1, cmdLow2]
      rw [bfH.1.2.2.2.2.2.2.2.1, bfL.1.2.2.2.2.2.2.2.1,
        bfH.1.2.2.2.2.2.2.1, bfL.1.2.2.2.2.2.2.1]
    · simp only [List.map_cons, List.map_nil, datHigh1, datHigh2, datLow1,
        datLow2, cmdHigh1, cmdHigh2, cmdLow1, cmdLow2]
      rw [bfH.1.1.1, bfH.1.1.2.1, bfL.1.1.1, bfL.1.1.2.1,
        bfH.1.2.1.1, bfH.1.2.1.2.1, bfL.1.2.1.1, bfL.1.2.1.2.1]
    · intro b hb
      simp only [List.mem_cons, List.not_mem_nil, or_false] at hb
      rcases hb with rfl | rfl | rfl | rfl
      · exact bfH.1.2.2.2.2.2.2.2.2.1
      · exact bfH.1.2.2.2.2.2.2.2.2.2
      · exact bfL.1.2.2.2.2.2.2.2.2.1
      · exact bfL.1.2.2.2.2.2.2.2.2.2
  · refine ⟨?_, rfl, rfl, ?_, ?_⟩
    · simp only [List.map_cons, List.map_nil, datHigh1, datHigh2, datLow1,
        datLow2, cmdHigh1, cmdHigh2, cmdLow1, cmdLow2]
      rw [bfH.2.2.2.2.2.2.2.2.1, bfL.2.2.2.2.2.2.2.2.1,
        bfH.2.2.2.2.2.2.2.1, bfL.2.2.2.2.2.2.2.1]
    · simp only [List.map_cons, List.map_nil, datHigh1, datHigh2, datLow1,
        datLow2, cmdHigh1, cmdHigh2, cmdLow1, cmdLow2]
      rw [bfH.2.1.1, bfH.2.1.2.1, bfL.2.1.1, bfL.2.1.2.1,
        bfH.2.2.1.1, bfH.2.2.1.2.1, bfL.2.2.1.1, bfL.2.2.1.2.1]
    · intro b hb
      simp only [List.mem_cons, List.not_mem_nil, or_false] at hb
      rcases hb with rfl | rfl | rfl | rfl
      · exact bfH.2.2.2.2.2.2.2.2.2.1
      · exact bfH.2.2.2.2.2.2.2.2.2.2
      · exact bfL.2.2.2.2.2.2.2.2.2.1
      · exact bfL.2.2.2.2.2.2.2.2.2.2

/-- Witness for C5 at `d = 0x41` on a concrete state. -/
theorem writedata_is_writecmd4_with_rs_witness :
    (((lcd44780writecmd4 res0 st16x2 65).2.trace).drop
      st16x2.trace.length).length = 4 :=
  (writedata_is_writecmd4_with_rs res0 st16x2 65 (by decide) (Or.inr rfl)).2.1

/-- Congruence: `lcd44780writecmd4` only observes its argument through the two nibble
masks. -/
theorem writecmd4_congr (res : Nat → Int) (s : LCDState) {d e : Nat}
    (h1 : d &&& 0xF0 = e &&& 0xF0)
    (h2 : (d <<< 4) &&& 0xF0 = (e <<< 4) &&& 0xF0) :
    lcd44780writecmd4 res s d = lcd44780writecmd4 res s e := by
  unfold lcd44780writecmd4
  rw [h1, h2]

theorem testBit240_high {i : Nat} (hi : 8 ≤ i) : Nat.testBit 240 i = false :=
  Nat.testBit_eq_false_of_lt (lt_of_lt_of_le (by norm_num)
    (Nat.pow_le_pow_right (by norm_num) hi))

/-- Reducing the argument of `128 ||| ·` modulo 256 does not change the
high-nibble mask. -/
theorem testBit_mod256 {x i : Nat} (hi : i < 8) :
    (x % 256).testBit i = x.testBit i := by
  rw [show (256 : Nat) = 2 ^ 8 by norm_num, Nat.testBit_mod_two_pow]
  simp [hi]

theorem or128_mod256_and240 (x : Nat) :
    (128 ||| x % 256) &&& 0xF0 = (128 ||| x) &&& 0xF0 := by
  apply Nat.eq_of_testBit_eq
  intro i
  rcases Nat.lt_or_ge i 8 with hi | hi
  · simp [Nat.testBit_and, Nat.testBit_or, testBit_mod256 hi]
  · simp [Nat.testBit_and, testBit240_high hi]

/-- Reducing the argument of `128 ||| ·` modulo 256 does not change the
low-nibble mask either. -/
theorem or128_mod256_shift_and240 (x : Nat) :
    ((128 ||| x % 256) <<< 4) &&& 0xF0 = ((128 ||| x) <<< 4) &&& 0xF0 := by
  apply Nat.eq_of_testBit_eq
  intro i
  rcases Nat.lt_or_ge i 8 with hi | hi
  · have hi4 : i - 4 < 8 := by omega
    simp [Nat.testBit_and, Nat.testBit_or, Nat.testBit_shiftLeft,
      testBit_mod256 hi4]
  · simp [Nat.testBit_and, testBit240_high hi]

/-- C4: for any row index 0–3 and any column index, `lcd44780setpos`
behaves exactly like one `lcd44780writecmd4` call on the command byte
`DDRAMSETADDR ||| (rowstart[rowIdx] + colIdx)` — the internal `uint8_t`
truncation of the cursor address is invisible on the bus — and the call
performs exactly the four bus writes of one 4-bit command transfer. -/
theorem setpos_sends_ddram_command (res : Nat → Int) (s : LCDState)
    (rowIdx colIdx : Nat) (h : rowIdx < 4) :
    lcd44780setpos res s rowIdx colIdx =
      lcd44780writecmd4 res s (DDRAMSETADDR ||| (rowstart.getD rowIdx 0 + colIdx)) ∧
    (lcd44780setpos res s rowIdx colIdx).2.trace.length = s.trace.length + 4 := by
  have heq : lcd44780setpos res s rowIdx colIdx =
      lcd44780writecmd4 res s (DDRAMSETADDR ||| (rowstart.getD rowIdx 0 + colIdx)) := by
    unfold lcd44780setpos
    exact writecmd4_congr res s (or128_mod256_and240 _) (or128_mod256_shift_and240 _)
  refine ⟨heq, ?_⟩
  rw [heq, writecmd4_trace]
  simp

/-- Witness for C4 at row index 1, column index 4. -/
theorem setpos_sends_ddram_command_witness :
    lcd44780setpos res0 st16x2 1 4 =
      lcd44780writecmd4 res0 st16x2 (DDRAMSETADDR ||| (rowstart.getD 1 0 + 4)) :=
  (setpos_sends_ddram_command res0 st16x2 1 4 (by decide)).1

/-- C2: `lcd44780str` and `lcd44780chr` reject a row below `ORIGIN` with
`ROWTOOLOW` (-1000), a row above `ORIGIN + lcdrows - 1` with `ROWTOOHIGH`
(-1001), a column below `ORIGIN` with `COLTOOLOW` (-1003) and a column
above `ORIGIN + lcdcols - 1` with `COLTOOHIGH` (-1004); in each case the
state — in particular the bus trace — is returned unchanged, so no bus
write happens. -/
theorem validation_short_circuits (res : Nat → Int) (s : LCDState)
    (text : List Nat) (row col : Nat) :
    (row < ORIGIN →
      lcd44780str res s text row col = (ROWTOOLOW, s) ∧
      lcd44780chr res s text row col = (ROWTOOLOW, s)) ∧
    (ORIGIN ≤ row → ORIGIN + s.lcdrows - 1 < row →
      lcd44780str res s text row col = (ROWTOOHIGH, s) ∧
      lcd44780chr res s text row col = (ROWTOOHIGH, s)) ∧
    (ORIGIN ≤ row → row ≤ ORIGIN + s.lcdrows - 1 → col < ORIGIN →
      lcd44780str res s text row col = (COLTOOLOW, s) ∧
      lcd44780chr res s text row col = (COLTOOLOW, s)) ∧
    (ORIGIN ≤ row → row ≤ ORIGIN + s.lcdrows - 1 → ORIGIN ≤ col →
      ORIGIN + s.lcdcols - 1 < col →
      lcd44780str res s text row col = (COLTOOHIGH, s) ∧
      lcd44780chr res s text row col = (COLTOOHIGH, s)) := by
  refine ⟨?_, ?_, ?_, ?_⟩
  · intro h1
    constructor <;> simp [lcd44780str, lcd44780chr, h1]
  · intro h1 h2
    have hn1 : ¬ (row < ORIGIN) := Nat.not_lt.mpr h1
    constructor <;> simp [lcd44780str, lcd44780chr, hn1, h2]
  · intro h1 h2 h3
    have hn1 : ¬ (row < ORIGIN) := Nat.not_lt.mpr h1
    have hn2 : ¬ (ORIGIN + s.lcdrows - 1 < row) := Nat.not_lt.mpr h2
    constructor <;> simp [lcd44780str, lcd44780chr, hn1, hn2, h3]
  · intro h1 h2 h3 h4
    have hn1 : ¬ (row < ORIGIN) := Nat.not_lt.mpr h1
    have hn2 : ¬ (ORIGIN + s.lcdrows - 1 < row) := Nat.not_lt.mpr h2
    have hn3 : ¬ (col < ORIGIN) := Nat.not_lt.mpr h3
    constructor <;> simp [lcd44780str, lcd44780chr, hn1, hn2, hn3, h4]

/-- Witness for C2: row 3 on a 2-row display is rejected without a write. -/
theorem validation_short_circuits_witness :
    lcd44780str res0 st16x2 [72] 3 1 = (ROWTOOHIGH, st16x2) :=
  ((validation_short_circuits res0 st16x2 [72] 3 1).2.1 (by decide)
    (by decide)).1

/-- Unfolding one iteration of the write loop. -/
theorem strloop_cons (res : Nat → Int) (s : LCDState) (c : Nat)
    (rest : List Nat) (i0 : Int) :
    lcd44780strloop res s (c :: rest) i0 =
      lcd44780strloop res (lcd44780writedata res s c).2 rest
        (lcd44780writedata res s c).1 := rfl

/-- The write loop appends the 4-byte data frame of every character, in
order, and leaves the backlight flag unchanged. -/
theorem strloop_trace (res : Nat → Int) (cs : List Nat) :
    ∀ (s : LCDState) (i0 : Int),
      (lcd44780strloop res s cs i0).2.trace =
        s.trace ++ cs.flatMap (fun c =>
          [datHigh1 s.bl c, datHigh2 s.bl c, datLow1 s.bl c, datLow2 s.bl c]) ∧
      (lcd44780strloop res s cs i0).2.bl = s.bl := by
  induction cs with
  | nil => intro s i0; simp [lcd44780strloop]
  | cons c rest ih =>
    intro s i0
    rw [strloop_cons]
    obtain ⟨ht, hb⟩ :=
      ih (lcd44780writedata res s c).2 (lcd44780writedata res s c).1
    simp only [writedata_bl] at ht hb
    simp only [writedata_trace] at ht
    refine ⟨?_, hb⟩
    rw [ht]
    simp [List.append_assoc]

/-- Lemma: `lcd44780setpos` always performs exactly four bus writes. -/
theorem setpos_trace_length (res : Nat → Int) (s : LCDState)
    (row col : Nat) :
    (lcd44780setpos res s row col).2.trace.length = s.trace.length + 4 := by
  unfold lcd44780setpos
  rw [writecmd4_trace]
  simp

/-- The concatenated data frames of a character list have four bytes per
character. -/
theorem dataFrames_length (b : Nat) (l : List Nat) :
    (l.flatMap (fun c =>
      [datHigh1 b c, datHigh2 b c, datLow1 b c, datLow2 b c])).length =
      4 * l.length := by
  induction l with
  | nil => simp
  | cons c rest ih => simp [ih]; omega

/-- For a valid position, `lcd44780str` reduces to cursor positioning
followed by the character write loop on the truncated text. -/
theorem str_valid_unfold (res : Nat → Int) (s : LCDState) (text : List Nat)
    (row col : Nat) (h1 : ORIGIN ≤ row) (h2 : row ≤ ORIGIN + s.lcdrows - 1)
    (h3 : ORIGIN ≤ col) (h4 : col ≤ ORIGIN + s.lcdcols - 1) :
    lcd44780str res s text row col =
      lcd44780strloop res (lcd44780setpos res s (row - ORIGIN) (col - ORIGIN)).2
        (text.take (min text.length (s.lcdcols - col + ORIGIN)))
        (lcd44780setpos res s (row - ORIGIN) (col - ORIGIN)).1 := by
  have hn1 : ¬ (row < ORIGIN) := Nat.not_lt.mpr h1
  have hn2 : ¬ (ORIGIN + s.lcdrows - 1 < row) := Nat.not_lt.mpr h2
  have hn3 : ¬ (col < ORIGIN) := Nat.not_lt.mpr h3
  have hn4 : ¬ (ORIGIN + s.lcdcols - 1 < col) := Nat.not_lt.mpr h4
  simp only [lcd44780str, if_neg hn1, if_neg hn2, if_neg hn3, if_neg hn4]

/-- C3: for a valid position, `lcd44780str` writes the cursor-set command
(4 bus writes) and then exactly the first
`min (length text) (cols - col + ORIGIN)` characters of the text, in
order, each framed as a 4-write data transfer; longer text is truncated to
the space left on the row with nothing else written (no wraparound). -/
theorem str_truncates (res : Nat → Int) (s : LCDState) (text : List Nat)
    (row col : Nat) (h1 : ORIGIN ≤ row) (h2 : row ≤ ORIGIN + s.lcdrows - 1)
    (h3 : ORIGIN ≤ col) (h4 : col ≤ ORIGIN + s.lcdcols - 1) :
    (lcd44780str res s text row col).2.trace =
      (lcd44780setpos res s (row - ORIGIN) (col - ORIGIN)).2.trace ++
        (text.take (min text.length (s.lcdcols - col + ORIGIN))).flatMap
          (fun c => [datHigh1 s.bl c, datHigh2 s.bl c, datLow1 s.bl c,
            datLow2 s.bl c]) ∧
    (lcd44780str res s text row col).2.trace.length =
      s.trace.length + 4 + 4 * min text.length (s.lcdcols - col + ORIGIN) ∧
    (s.lcdcols - col + ORIGIN < text.length →
      (text.take (min text.length (s.lcdcols - col + ORIGIN))).length =
        s.lcdcols - col + ORIGIN) := by
  have hstr := str_valid_unfold res s text row col h1 h2 h3 h4
  obtain ⟨ht, _⟩ := strloop_trace res
    (text.take (min text.length (s.lcdcols - col + ORIGIN)))
    (lcd44780setpos res s (row - ORIGIN) (col - ORIGIN)).2
    (lcd44780setpos res s (row - ORIGIN) (col - ORIGIN)).1
  simp only [setpos_bl] at ht
  refine ⟨?_, ?_, ?_⟩
  · rw [hstr]
    exact ht
  · rw [hstr, ht]
    simp only [List.length_append, setpos_trace_length, dataFrames_length,
      List.length_take]
    omega
  · intro hlong
    simp only [List.length_take]
    omega

/-- Witness for C3: a 5-character text at column 16 of a 16-column row is
truncated to 1 character — 4 + 4 bus writes. -/
theorem str_truncates_witness :
    (lcd44780str res0 st16x2 [65, 66, 67, 68, 69] 1 16).2.trace.length =
      st16x2.trace.length + 4 +
        4 * min ([65, 66, 67, 68, 69] : List Nat).length
          (st16x2.lcdcols - 16 + ORIGIN) :=
  (str_truncates res0 st16x2 [65, 66, 67, 68, 69] 1 16 (by decide)
    (by decide) (by decide) (by decide)).2.1

/-- Every byte of a 4-bit command transfer carries the state's backlight
bit. -/
theorem writecmd4_bytes_bl (s : LCDState) (d : Nat)
    (hbl : s.bl = 0 ∨ s.bl = 8) :
    ∀ b ∈ [cmdHigh1 s.bl d, cmdHigh2 s.bl d, cmdLow1 s.bl d, cmdLow2 s.bl d],
      b &&& BACKLIGHT = s.bl := by
  have bfH := byteFacts_holds (d &&& 0xF0) (hiMask_lt d) (hiMask_idem d)
  have bfL := byteFacts_holds ((d <<< 4) &&& 0xF0) (hiMask_lt _) (hiMask_idem _)
  intro b hb
  simp only [List.mem_cons, List.not_mem_nil, or_false] at hb
  rcases hbl with h | h <;> rw [h] at hb ⊢ <;>
    rcases hb with rfl | rfl | rfl | rfl
  exacts [bfH.1.2.2.1, bfH.1.2.2.2.1, bfL.1.2.2.1, bfL.1.2.2.2.1,
    bfH.2.2.2.1, bfH.2.2.2.2.1, bfL.2.2.2.1, bfL.2.2.2.2.1]

/-- Every byte of a data transfer carries the state's backlight bit. -/
theorem writedata_bytes_bl (s : LCDState) (d : Nat)
    (hbl : s.bl = 0 ∨ s.bl = 8) :
    ∀ b ∈ [datHigh1 s.bl d, datHigh2 s.bl d, datLow1 s.bl d, datLow2 s.bl d],
      b &&& BACKLIGHT = s.bl := by
  have bfH := byteFacts_holds (d &&& 0xF0) (hiMask_lt d) (hiMask_idem d)
  have bfL := byteFacts_holds ((d <<< 4) &&& 0xF0) (hiMask_lt _) (hiMask_idem _)
  intro b hb
  simp only [List.mem_cons, List.not_mem_nil, or_false] at hb
  rcases hbl with h | h <;> rw [h] at hb ⊢ <;>
    rcases hb with rfl | rfl | rfl | rfl
  exacts [bfH.1.2.2.2.2.1, bfH.1.2.2.2.2.2.1, bfL.1.2.2.2.2.1,
    bfL.1.2.2.2.2.2.1, bfH.2.2.2.2.2.1, bfH.2.2.2.2.2.2.1,
    bfL.2.2.2.2.2.1, bfL.2.2.2.2.2.2.1]

/-- Every byte of an 8-bit-mode command transfer carries the state's
backlight bit. -/
theorem writecmd8_bytes_bl (s : LCDState) (d : Nat)
    (hbl : s.bl = 0 ∨ s.bl = 8) :
    ∀ b ∈ [cmd8High1 s.bl d, cmd8High2 s.bl d], b &&& BACKLIGHT = s.bl := by
  have bfL := byteFacts_holds ((d <<< 4) &&& 0xF0) (hiMask_lt _) (hiMask_idem _)
  intro b hb
  simp only [List.mem_cons, List.not_mem_nil, or_false] at hb
  rcases hbl with h | h <;> rw [h] at hb ⊢ <;> rcases hb with rfl | rfl
  exacts [bfL.1.2.2.1, bfL.1.2.2.2.1, bfL.2.2.2.1, bfL.2.2.2.2.1]

/-- A command or data transfer issued through the nibble engine, used to
quantify over "every subsequent transfer" after a backlight change. -/
inductive XferOp where
  | cmd8 (d : Nat)
  | cmd4 (d : Nat)
  | dat (d : Nat)

/-- Run a sequence of transfers through the corresponding driver
functions. -/
def runXfers (res : Nat → Int) : LCDState → List XferOp → LCDState
  | s, [] => s
  | s, XferOp.cmd8 d :: rest => runXfers res (lcd44780writecmd8 res s d).2 rest
  | s, XferOp.cmd4 d :: rest => runXfers res (lcd44780writecmd4 res s d).2 rest
  | s, XferOp.dat d :: rest => runXfers res (lcd44780writedata res s d).2 rest

/-- Running transfers never changes the backlight flag, only appends to
the trace, and every appended byte carries the state's backlight bit. -/
theorem runXfers_shape (res : Nat → Int) (ops : List XferOp) :
    ∀ s : LCDState, (runXfers res s ops).bl = s.bl ∧
      ∃ l, (runXfers res s ops).trace = s.trace ++ l ∧
        ((s.bl = 0 ∨ s.bl = 8) → ∀ b ∈ l, b &&& BACKLIGHT = s.bl) := by
  induction ops with
  | nil =>
    intro s
    exact ⟨rfl, [], by simp [runXfers], fun _ b hb => absurd hb (List.not_mem_nil b)⟩
  | cons op rest ih =>
    intro s
    cases op with
    | cmd8 d =>
      obtain ⟨hbl, l, hl, hp⟩ := ih (lcd44780writecmd8 res s d).2
      simp only [writecmd8_bl] at hbl hp
      simp only [writecmd8_trace] at hl
      refine ⟨by simpa [runXfers] using hbl,
        [cmd8High1 s.bl d, cmd8High2 s.bl d] ++ l, ?_, ?_⟩
      · simpa [runXfers, List.append_assoc] using hl
      · intro hb0 b hb
        rcases List.mem_append.mp hb with hb | hb
        · exact writecmd8_bytes_bl s d hb0 b hb
        · exact hp hb0 b hb
    | cmd4 d =>
      obtain ⟨hbl, l, hl, hp⟩ := ih (lcd44780writecmd4 res s d).2
      simp only [writecmd4_bl] at hbl hp
      simp only [writecmd4_trace] at hl
      refine ⟨by simpa [runXfers] using hbl,
        [cmdHigh1 s.bl d, cmdHigh2 s.bl d, cmdLow1 s.bl d, cmdLow2 s.bl d] ++ l,
        ?_, ?_⟩
      · simpa [runXfers, List.append_assoc] using hl
      · intro hb0 b hb
        rcases List.mem_append.mp hb with hb | hb
        · exact writecmd4_bytes_bl s d hb0 b hb
        · exact hp hb0 b hb
    | dat d =>
      obtain ⟨hbl, l, hl, hp⟩ := ih (lcd44780writedata res s d).2
      simp only [writedata_bl] at hbl hp
      simp only [writedata_trace] at hl
      refine ⟨by simpa [runXfers] using hbl,
        [datHigh1 s.bl d, datHigh2 s.bl d, datLow1 s.bl d, datLow2 s.bl d] ++ l,
        ?_, ?_⟩
      · simpa [runXfers, List.append_assoc] using hl
      · intro hb0 b hb
        rcases List.mem_append.mp hb with hb | hb
        · exact writedata_bytes_bl s d hb0 b hb
        · exact hp hb0 b hb

/-- C6: the backlight flag set by `lcd44780backlight` is persistent state
OR-ed into every byte of every subsequent command or data transfer: after
`setting = 0` every such byte has the backlight bit clear, after any
nonzero setting every such byte has it set. -/
theorem backlight_is_persistent_state (res : Nat → Int) (s : LCDState)
    (setting : Nat) (ops : List XferOp) :
    (setting = 0 →
      ∀ b ∈ (runXfers res (lcd44780backlight res s setting).2 ops).trace.drop
          ((lcd44780backlight res s setting).2.trace.length),
        b &&& BACKLIGHT = 0) ∧
    (setting ≠ 0 →
      ∀ b ∈ (runXfers res (lcd44780backlight res s setting).2 ops).trace.drop
          ((lcd44780backlight res s setting).2.trace.length),
        b &&& BACKLIGHT = BACKLIGHT) := by
  obtain ⟨hbl, l, hl, hp⟩ :=
    runXfers_shape res ops (lcd44780backlight res s setting).2
  constructor <;> intro hset b hb
  · have h0 : (lcd44780backlight res s setting).2.bl = 0 := by
      simp [lcd44780backlight, i2c_write_device, hset]
    rw [hl, List.drop_left] at hb
    have := hp (Or.inl h0) b hb
    rwa [h0] at this
  · have h8 : (lcd44780backlight res s setting).2.bl = 8 := by
      simp [lcd44780backlight, i2c_write_device, hset, BACKLIGHT]
    rw [hl, List.drop_left] at hb
    have := hp (Or.inr h8) b hb
    rwa [h8] at this

/-- Witness for C6: after switching the backlight off, the first byte of a
following command transfer has the backlight bit clear. -/
theorem backlight_is_persistent_state_witness : (4 : Nat) &&& BACKLIGHT = 0 :=
  (backlight_is_persistent_state res0 st16x2 0 [XferOp.cmd4 1]).1 rfl 4
    (by decide)

/-- The status `lcd44780writecmd4` returns is the transport status of its
fourth (last) bus write. -/
theorem writecmd4_ret (res : Nat → Int) (s : LCDState) (d : Nat) :
    (lcd44780writecmd4 res s d).1 = res (s.trace.length + 3) := by
  simp [lcd44780writecmd4, i2c_write_device]

/-- Lemma: `lcd44780init` unfolded to its straight-line sequence of transfers
(command bytes evaluated: 0x03 three times and 0x02 in 8-bit mode, then
0x28, 0x08, 0x04, 0x01, 0x0C in 4-bit mode). -/
theorem init_unfold (res : Nat → Int) (s : LCDState) (rows cols : Nat) :
    lcd44780init res s rows cols =
      lcd44780writecmd4 res
        (lcd44780writecmd4 res
          (lcd44780writecmd4 res
            (lcd44780writecmd4 res
              (lcd44780writecmd4 res
                (lcd44780writecmd8 res
                  (lcd44780writecmd8 res
                    (lcd44780writecmd8 res
                      (lcd44780writecmd8 res
                        (⟨s.bl, rows % 256, cols % 256, s.trace⟩ : LCDState)
                        3).2
                      3).2
                    3).2
                  2).2
                40).2
              8).2
            4).2
          1).2
        12 := rfl

/-- The byte sequence `lcd44780init` writes, independent of transport
statuses. -/
def initWrites (b : Nat) : List Nat :=
  [cmd8High1 b 3, cmd8High2 b 3, cmd8High1 b 3, cmd8High2 b 3,
   cmd8High1 b 3, cmd8High2 b 3, cmd8High1 b 2, cmd8High2 b 2,
   cmdHigh1 b 40, cmdHigh2 b 40, cmdLow1 b 40, cmdLow2 b 40,
   cmdHigh1 b 8, cmdHigh2 b 8, cmdLow1 b 8, cmdLow2 b 8,
   cmdHigh1 b 4, cmdHigh2 b 4, cmdLow1 b 4, cmdLow2 b 4,
   cmdHigh1 b 1, cmdHigh2 b 1, cmdLow1 b 1, cmdLow2 b 1,
   cmdHigh1 b 12, cmdHigh2 b 12, cmdLow1 b 12, cmdLow2 b 12]

/-- Lemma: `lcd44780init` always puts exactly `initWrites` on the bus. -/
theorem init_trace (res : Nat → Int) (s : LCDState) (rows cols : Nat) :
    (lcd44780init res s rows cols).2.trace = s.trace ++ initWrites s.bl := by
  rw [init_unfold]
  simp only [writecmd4_trace, writecmd8_trace, writecmd4_bl, writecmd8_bl,
    initWrites, List.append_assoc, List.cons_append, List.nil_append]

/-- C8: `lcd44780init` issues all 28 bus writes of its sequence no matter
what statuses the transport returns (the trace is oracle-independent, so
an early transport error aborts nothing and is never retried), and its
return value is exactly the transport status of its final write — the
closing display-control command `DISPLAYCONTROL|DISPLAYON|BLINKOFF|CURSOROFF`,
whose four frame bytes are the last four written. -/
theorem init_returns_final_status (res resB : Nat → Int) (s : LCDState)
    (rows cols : Nat) :
    (lcd44780init res s rows cols).2.trace =
      (lcd44780init resB s rows cols).2.trace ∧
    (lcd44780init res s rows cols).2.trace.length = s.trace.length + 28 ∧
    (lcd44780init res s rows cols).1 = res (s.trace.length + 27) ∧
    (lcd44780init res s rows cols).2.trace.drop (s.trace.length + 24) =
      [cmdHigh1 s.bl (DISPLAYCONTROL ||| DISPLAYON ||| BLINKOFF ||| CURSOROFF),
       cmdHigh2 s.bl (DISPLAYCONTROL ||| DISPLAYON ||| BLINKOFF ||| CURSOROFF),
       cmdLow1 s.bl (DISPLAYCONTROL ||| DISPLAYON ||| BLINKOFF ||| CURSOROFF),
       cmdLow2 s.bl (DISPLAYCONTROL ||| DISPLAYON ||| BLINKOFF ||| CURSOROFF)] := by
  refine ⟨?_, ?_, ?_, ?_⟩
  · rw [init_trace, init_trace]
  · rw [init_trace]
    simp [initWrites]
  · rw [init_unfold, writecmd4_ret]
    refine congrArg res ?_
    simp only [writecmd4_trace, writecmd8_trace, writecmd4_bl, writecmd8_bl,
      List.length_append, List.length_cons, List.length_nil]
  · rw [init_trace, ← List.drop_drop, List.drop_left]
    rfl

/-- Counterexample to C7: the entry-mode-set transfer of `lcd44780init`
frames `ENTRYMODESET|ENTRYRIGHT` (0x04) — whose frame bytes are NOT those
of `ENTRYMODESET|ENTRYINC|ENTRYLEFT` (0x07), so the increment and
left-to-right bits are not OR-ed in. -/
theorem init_entrymode_counterexample :
    ((lcd44780init res0 initialState 2 16).2.trace.drop 16).take 4 =
      [cmdHigh1 8 (ENTRYMODESET ||| ENTRYRIGHT),
       cmdHigh2 8 (ENTRYMODESET ||| ENTRYRIGHT),
       cmdLow1 8 (ENTRYMODESET ||| ENTRYRIGHT),
       cmdLow2 8 (ENTRYMODESET ||| ENTRYRIGHT)] ∧
    ((lcd44780init res0 initialState 2 16).2.trace.drop 16).take 4 ≠
      [cmdHigh1 8 (ENTRYMODESET ||| ENTRYINC ||| ENTRYLEFT),
       cmdHigh2 8 (ENTRYMODESET ||| ENTRYINC ||| ENTRYLEFT),
       cmdLow1 8 (ENTRYMODESET ||| ENTRYINC ||| ENTRYLEFT),
       cmdLow2 8 (ENTRYMODESET ||| ENTRYINC ||| ENTRYLEFT)] := by
  constructor <;> decide

/-- C7 (amended): the entry-mode-set command `lcd44780init` sends after
entering 4-bit mode is the bare `ENTRYMODESET|ENTRYRIGHT` byte (0x04),
with neither the increment bit (`ENTRYINC`) nor the left-to-right bit
(`ENTRYLEFT`) set. -/
theorem init_entrymode_sent (res : Nat → Int) (s : LCDState)
    (rows cols : Nat) :
    ((lcd44780init res s rows cols).2.trace.drop (s.trace.length + 16)).take 4 =
      [cmdHigh1 s.bl (ENTRYMODESET ||| ENTRYRIGHT),
       cmdHigh2 s.bl (ENTRYMODESET ||| ENTRYRIGHT),
       cmdLow1 s.bl (ENTRYMODESET ||| ENTRYRIGHT),
       cmdLow2 s.bl (ENTRYMODESET ||| ENTRYRIGHT)] ∧
    (ENTRYMODESET ||| ENTRYRIGHT) &&& ENTRYINC = 0 ∧
    (ENTRYMODESET ||| ENTRYRIGHT) &&& ENTRYLEFT = 0 := by
  refine ⟨?_, by decide, by decide⟩
  rw [init_trace, ← List.drop_drop, List.drop_left]
  rfl

theorem writecmd4_lcdrows (res : Nat → Int) (s : LCDState) (d : Nat) :
    (lcd44780writecmd4 res s d).2.lcdrows = s.lcdrows := rfl

theorem writecmd8_lcdrows (res : Nat → Int) (s : LCDState) (d : Nat) :
    (lcd44780writecmd8 res s d).2.lcdrows = s.lcdrows := rfl

/-- C9: the `rowstart` table access is in bounds exactly under the
precondition `rows ≤ 4`: (i) whenever `lcdrows ≤ 4` and a row passes the
`lcd44780str`/`lcd44780chr` validation, the 0-based index `row - ORIGIN`
handed to `lcd44780setpos` is inside the 4-entry table; (ii)
`lcd44780setpos` itself performs its four bus writes for every row index,
with no bound check; (iii) `lcd44780init` with `rows ≤ 4` establishes
`lcdrows ≤ 4`; (iv) with 5 configured rows, row 5 passes validation yet
indexes outside the table — the bound on `rows` is really needed. -/
theorem rowstart_index_safety (res : Nat → Int) (s : LCDState) (row : Nat)
    (h4 : s.lcdrows ≤ 4) (h1 : ORIGIN ≤ row)
    (h2 : row ≤ ORIGIN + s.lcdrows - 1) :
    row - ORIGIN < rowstart.length ∧
    (∀ r c : Nat,
      (lcd44780setpos res s r c).2.trace.length = s.trace.length + 4) ∧
    (∀ rows cols : Nat, rows ≤ 4 →
      (lcd44780init res s rows cols).2.lcdrows ≤ 4) ∧
    (ORIGIN ≤ 5 ∧ 5 ≤ ORIGIN + 5 - 1 ∧ ¬ (5 - ORIGIN < rowstart.length)) := by
  refine ⟨?_, ?_, ?_, by decide⟩
  · have hlen : rowstart.length = 4 := rfl
    rw [hlen]
    simp only [ORIGIN] at h1 h2 ⊢
    omega
  · intro r c
    exact setpos_trace_length res s r c
  · intro rows cols hrows
    rw [init_unfold]
    simp only [writecmd4_lcdrows, writecmd8_lcdrows]
    have : rows % 256 = rows := Nat.mod_eq_of_lt (by omega)
    rw [this]
    exact hrows

/-- Witness for C9: row 2 on a 2-row display indexes entry 1 of the
table. -/
theorem rowstart_index_safety_witness : 2 - ORIGIN < rowstart.length :=
  (rowstart_index_safety res0 st16x2 2 (by decide) (by decide) (by decide)).1

/-- The status `lcd44780writedata` returns is the transport status of its
fourth (last) bus write. -/
theorem writedata_ret (res : Nat → Int) (s : LCDState) (d : Nat) :
    (lcd44780writedata res s d).1 = res (s.trace.length + 3) := by
  simp [lcd44780writedata, i2c_write_device]

/-- The status `lcd44780setpos` returns is a transport status. -/
theorem setpos_ret (res : Nat → Int) (s : LCDState) (row col : Nat) :
    (lcd44780setpos res s row col).1 = res (s.trace.length + 3) := by
  unfold lcd44780setpos
  rw [writecmd4_ret]

/-- The write loop's result is always a transport status when its initial
status is one. -/
theorem strloop_ret (res : Nat → Int) (cs : List Nat) :
    ∀ (s : LCDState) (i0 : Int), (∃ k, i0 = res k) →
      ∃ k, (lcd44780strloop res s cs i0).1 = res k := by
  induction cs with
  | nil => intro s i0 h; simpa [lcd44780strloop] using h
  | cons c rest ih =>
    intro s i0 h
    rw [strloop_cons]
    exact ih _ _ ⟨s.trace.length + 3, writedata_ret res s c⟩

/-- For a valid position, `lcd44780chr` reduces to cursor positioning
followed by one data write of the first character. -/
theorem chr_valid_unfold (res : Nat → Int) (s : LCDState) (text : List Nat)
    (row col : Nat) (h1 : ORIGIN ≤ row) (h2 : row ≤ ORIGIN + s.lcdrows - 1)
    (h3 : ORIGIN ≤ col) (h4 : col ≤ ORIGIN + s.lcdcols - 1) :
    lcd44780chr res s text row col =
      lcd44780writedata res
        (lcd44780setpos res s (row - ORIGIN) (col - ORIGIN)).2
        (text.headD 0) := by
  have hn1 : ¬ (row < ORIGIN) := Nat.not_lt.mpr h1
  have hn2 : ¬ (ORIGIN + s.lcdrows - 1 < row) := Nat.not_lt.mpr h2
  have hn3 : ¬ (col < ORIGIN) := Nat.not_lt.mpr h3
  have hn4 : ¬ (ORIGIN + s.lcdcols - 1 < col) := Nat.not_lt.mpr h4
  simp only [lcd44780chr, if_neg hn1, if_neg hn2, if_neg hn3, if_neg hn4]

/-- Exhaustive case analysis of the result of `lcd44780str`. -/
theorem str_first (res : Nat → Int) (s : LCDState) (text : List Nat)
    (row col : Nat) :
    (row < ORIGIN ∧ (lcd44780str res s text row col).1 = ROWTOOLOW) ∨
    (ORIGIN ≤ row ∧ ORIGIN + s.lcdrows - 1 < row ∧
      (lcd44780str res s text row col).1 = ROWTOOHIGH) ∨
    (ORIGIN ≤ row ∧ row ≤ ORIGIN + s.lcdrows - 1 ∧ col < ORIGIN ∧
      (lcd44780str res s text row col).1 = COLTOOLOW) ∨
    (ORIGIN ≤ row ∧ row ≤ ORIGIN + s.lcdrows - 1 ∧ ORIGIN ≤ col ∧
      ORIGIN + s.lcdcols - 1 < col ∧
      (lcd44780str res s text row col).1 = COLTOOHIGH) ∨
    (ORIGIN ≤ row ∧ row ≤ ORIGIN + s.lcdrows - 1 ∧ ORIGIN ≤ col ∧
      col ≤ ORIGIN + s.lcdcols - 1 ∧
      ∃ k, (lcd44780str res s text row col).1 = res k) := by
  by_cases hr1 : row < ORIGIN
  · exact Or.inl ⟨hr1, by simp [lcd44780str, hr1]⟩
  by_cases hr2 : ORIGIN + s.lcdrows - 1 < row
  · exact Or.inr (Or.inl ⟨Nat.not_lt.mp hr1, hr2,
      by simp [lcd44780str, hr1, hr2]⟩)
  by_cases hc1 : col < ORIGIN
  · exact Or.inr (Or.inr (Or.inl ⟨Nat.not_lt.mp hr1, Nat.not_lt.mp hr2, hc1,
      by simp [lcd44780str, hr1, hr2, hc1]⟩))
  by_cases hc2 : ORIGIN + s.lcdcols - 1 < col
  · exact Or.inr (Or.inr (Or.inr (Or.inl ⟨Nat.not_lt.mp hr1,
      Nat.not_lt.mp hr2, Nat.not_lt.mp hc1, hc2,
      by simp [lcd44780str, hr1, hr2, hc1, hc2]⟩)))
  · refine Or.inr (Or.inr (Or.inr (Or.inr ⟨Nat.not_lt.mp hr1,
      Nat.not_lt.mp hr2, Nat.not_lt.mp hc1, Nat.not_lt.mp hc2, ?_⟩)))
    rw [str_valid_unfold res s text row col (Nat.not_lt.mp hr1)
      (Nat.not_lt.mp hr2) (Nat.not_lt.mp hc1) (Nat.not_lt.mp hc2)]
    exact strloop_ret res _ _ _ ⟨_, setpos_ret res s _ _⟩

/-- Exhaustive case analysis of the result of `lcd44780chr`. -/
theorem chr_first (res : Nat → Int) (s : LCDState) (text : List Nat)
    (row col : Nat) :
    (row < ORIGIN ∧ (lcd44780chr res s text row col).1 = ROWTOOLOW) ∨
    (ORIGIN ≤ row ∧ ORIGIN + s.lcdrows - 1 < row ∧
      (lcd44780chr res s text row col).1 = ROWTOOHIGH) ∨
    (ORIGIN ≤ row ∧ row ≤ ORIGIN + s.lcdrows - 1 ∧ col < ORIGIN ∧
      (lcd44780chr res s text row col).1 = COLTOOLOW) ∨
    (ORIGIN ≤ row ∧ row ≤ ORIGIN + s.lcdrows - 1 ∧ ORIGIN ≤ col ∧
      ORIGIN + s.lcdcols - 1 < col ∧
      (lcd44780chr res s text row col).1 = COLTOOHIGH) ∨
    (ORIGIN ≤ row ∧ row ≤ ORIGIN + s.lcdrows - 1 ∧ ORIGIN ≤ col ∧
      col ≤ ORIGIN + s.lcdcols - 1 ∧
      ∃ k, (lcd44780chr res s text row col).1 = res k) := by
  by_cases hr1 : row < ORIGIN
  · exact Or.inl ⟨hr1, by simp [lcd44780chr, hr1]⟩
  by_cases hr2 : ORIGIN + s.lcdrows - 1 < row
  · exact Or.inr (Or.inl ⟨Nat.not_lt.mp hr1, hr2,
      by simp [lcd44780chr, hr1, hr2]⟩)
  by_cases hc1 : col < ORIGIN
  · exact Or.inr (Or.inr (Or.inl ⟨Nat.not_lt.mp hr1, Nat.not_lt.mp hr2, hc1,
      by simp [lcd44780chr, hr1, hr2, hc1]⟩))
  by_cases hc2 : ORIGIN + s.lcdcols - 1 < col
  · exact Or.inr (Or.inr (Or.inr (Or.inl ⟨Nat.not_lt.mp hr1,
      Nat.not_lt.mp hr2, Nat.not_lt.mp hc1, hc2,
      by simp [lcd44780chr, hr1, hr2, hc1, hc2]⟩)))
  · refine Or.inr (Or.inr (Or.inr (Or.inr ⟨Nat.not_lt.mp hr1,
      Nat.not_lt.mp hr2, Nat.not_lt.mp hc1, Nat.not_lt.mp hc2, ?_⟩)))
    rw [chr_valid_unfold res s text row col (Nat.not_lt.mp hr1)
      (Nat.not_lt.mp hr2) (Nat.not_lt.mp hc1) (Nat.not_lt.mp hc2)]
    exact ⟨_, writedata_ret res _ _⟩

/-- Counterexample to C10: a caller value of -256 wraps modulo 256 to row
0, which is out of range, yet `lcd44780str` reports it as `ROWTOOLOW`,
not as the too-high error the claim predicts for negative inputs. -/
theorem uint8_wrap_counterexample :
    (-256 : Int) < 0 ∧ wrapU8 (-256) = 0 ∧ wrapU8 (-256) < ORIGIN ∧
    (lcd44780str res0 st16x2 [72] (wrapU8 (-256)) 1).1 = ROWTOOLOW ∧
    ROWTOOLOW ≠ ROWTOOHIGH := by
  refine ⟨by decide, by decide, by decide, ?_, by decide⟩
  decide

/-- C10 (amended): with `ORIGIN = 1` and the row/col parameters being
unsigned 8-bit values, `ROWTOOLOW`/`COLTOOLOW` are returned exactly when
the (wrapped) row/col is 0; a negative caller value wraps modulo 256, and
an out-of-range wrapped value is reported as the corresponding too-high
error — except when the wrap lands on 0 (caller value a multiple of 256),
which is reported as too-low.  `hres` records that transport statuses
(pigpiod: 0 or small negative codes) are never the library's own error
codes. -/
theorem uint8_wrap_errors (res : Nat → Int) (s : LCDState)
    (text : List Nat) (row col : Nat) (hres : ∀ n, ROWTOOLOW < res n) :
    ((lcd44780str res s text row col).1 = ROWTOOLOW ↔ row = 0) ∧
    ((lcd44780chr res s text row col).1 = ROWTOOLOW ↔ row = 0) ∧
    (ORIGIN ≤ row → row ≤ ORIGIN + s.lcdrows - 1 →
      (((lcd44780str res s text row col).1 = COLTOOLOW ↔ col = 0) ∧
       ((lcd44780chr res s text row col).1 = COLTOOLOW ↔ col = 0))) ∧
    (∀ z : Int, z < 0 → z % 256 ≠ 0 → s.lcdrows < wrapU8 z →
      (lcd44780str res s text (wrapU8 z) col).1 = ROWTOOHIGH ∧
      (lcd44780chr res s text (wrapU8 z) col).1 = ROWTOOHIGH) ∧
    (∀ z : Int, z < 0 → z % 256 ≠ 0 → s.lcdcols < wrapU8 z →
      ORIGIN ≤ row → row ≤ ORIGIN + s.lcdrows - 1 →
      (lcd44780str res s text row (wrapU8 z)).1 = COLTOOHIGH ∧
      (lcd44780chr res s text row (wrapU8 z)).1 = COLTOOHIGH) := by
  refine ⟨?_, ?_, ?_, ?_, ?_⟩
  · constructor
    · intro he
      rcases str_first res s text row col with ⟨hc, _⟩ | ⟨_, _, he2⟩ |
        ⟨_, _, _, he2⟩ | ⟨_, _, _, _, he2⟩ | ⟨_, _, _, _, k, he2⟩
      · simp only [ORIGIN] at hc; omega
      · exact absurd (he.symm.trans he2) (by decide)
      · exact absurd (he.symm.trans he2) (by decide)
      · exact absurd (he.symm.trans he2) (by decide)
      · exact absurd (he.symm.trans he2) (ne_of_lt (hres k))
    · intro h
      subst h
      simp [lcd44780str, ORIGIN]
  · constructor
    · intro he
      rcases chr_first res s text row col with ⟨hc, _⟩ | ⟨_, _, he2⟩ |
        ⟨_, _, _, he2⟩ | ⟨_, _, _, _, he2⟩ | ⟨_, _, _, _, k, he2⟩
      · simp only [ORIGIN] at hc; omega
      · exact absurd (he.symm.trans he2) (by decide)
      · exact absurd (he.symm.trans he2) (by decide)
      · exact absurd (he.symm.trans he2) (by decide)
      · exact absurd (he.symm.trans he2) (ne_of_lt (hres k))
    · intro h
      subst h
      simp [lcd44780chr, ORIGIN]
  · intro h1 h2
    have hn1 : ¬ (row < ORIGIN) := Nat.not_lt.mpr h1
    have hn2 : ¬ (ORIGIN + s.lcdrows - 1 < row) := Nat.not_lt.mpr h2
    constructor
    · constructor
      · intro he
        rcases str_first res s text row col with ⟨hc, _⟩ | ⟨_, hc, _⟩ |
          ⟨_, _, hc, _⟩ | ⟨_, _, _, _, he2⟩ | ⟨_, _, _, _, k, he2⟩
        · exact absurd hc hn1
        · exact absurd hc hn2
        · simp only [ORIGIN] at hc; omega
        · exact absurd (he.symm.trans he2) (by decide)
        · exact absurd (he.symm.trans he2)
            (ne_of_lt (lt_trans (by decide) (hres k)))
      · intro h
        subst h
        have hr0 : row ≠ 0 := by simp only [ORIGIN] at h1; omega
        have hless : ¬ (s.lcdrows < row) := by
          simp only [ORIGIN] at h2; omega
        simp [lcd44780str, hn1, hn2, hr0, hless, ORIGIN]
    · constructor
      · intro he
        rcases chr_first res s text row col with ⟨hc, _⟩ | ⟨_, hc, _⟩ |
          ⟨_, _, hc, _⟩ | ⟨_, _, _, _, he2⟩ | ⟨_, _, _, _, k, he2⟩
        · exact absurd hc hn1
        · exact absurd hc hn2
        · simp only [ORIGIN] at hc; omega
        · exact absurd (he.symm.trans he2) (by decide)
        · exact absurd (he.symm.trans he2)
            (ne_of_lt (lt_trans (by decide) (hres k)))
      · intro h
        subst h
        have hr0 : row ≠ 0 := by simp only [ORIGIN] at h1; omega
        have hless : ¬ (s.lcdrows < row) := by
          simp only [ORIGIN] at h2; omega
        simp [lcd44780chr, hn1, hn2, hr0, hless, ORIGIN]
  · intro z hz hz0 hrows
    have hw : 1 ≤ wrapU8 z := by
      unfold wrapU8
      omega
    have hn1 : ¬ (wrapU8 z < ORIGIN) := by
      simp only [ORIGIN]
      omega
    have h2 : ORIGIN + s.lcdrows - 1 < wrapU8 z := by
      simp only [ORIGIN]
      omega
    constructor <;> simp [lcd44780str, lcd44780chr, hn1, h2]
  · intro z hz hz0 hcols h1 h2
    have hw : 1 ≤ wrapU8 z := by
      unfold wrapU8
      omega
    have hn1 : ¬ (row < ORIGIN) := Nat.not_lt.mpr h1
    have hn2 : ¬ (ORIGIN + s.lcdrows - 1 < row) := Nat.not_lt.mpr h2
    have hn3 : ¬ (wrapU8 z < ORIGIN) := by
      simp only [ORIGIN]
      omega
    have h4 : ORIGIN + s.lcdcols - 1 < wrapU8 z := by
      simp only [ORIGIN]
      omega
    constructor <;> simp [lcd44780str, lcd44780chr, hn1, hn2, hn3, h4]

/-- Witness for the amended C10 at row 0 on a concrete state. -/
theorem uint8_wrap_errors_witness :
    (lcd44780str res0 st16x2 [72] 0 1).1 = ROWTOOLOW :=
  ((uint8_wrap_errors res0 st16x2 [72] 0 1
    (fun _ => by norm_num [res0, ROWTOOLOW])).1).mpr rfl
